import Mathlib

/-!
Verification development for the ORGanetto VS Code extension
(repository fracarma/organetto).

The file gives a shallow embedding of the org-management logic of
src/extension.ts (the current revision of the file) and of the table
sorting script embedded in the generated webview HTML.  Subprocess
invocations are modelled by an environment value describing the outcome
of the single awaited call; the VS Code globalState store is modelled by
an explicit record threaded through the handlers.  JavaScript strings
are modelled by Lean strings, with absent object fields modelled by
Option and JS truthiness of a string made explicit (absent or empty
means falsy).
-/

namespace Organetto

/-- JS truthiness of a possibly absent string field: undefined and the
empty string are falsy, every other string is truthy. -/
def truthyStr : Option String → Bool
  | some s => s ≠ ""
  | none => false

/-- JS short-circuit or on possibly absent string fields, as in the
source expression org.alias or-else org.username: the left value is
taken when truthy, otherwise the right value is the result. -/
def jsOrStr : Option String → Option String → Option String
  | some a, b => if a = "" then b else some a
  | none, b => b

/-- Checks whether the pattern is a leading segment of the character
list, modelling the anchored part of a JS substring test. -/
def firstMatches : List Char → List Char → Bool
  | [], _ => true
  | _ :: _, [] => false
  | p :: ps, c :: cs => p = c && firstMatches ps cs

/-- Substring containment on character lists, modelling the JS string
includes method (an empty pattern is contained in every string). -/
def containsSub (pat : List Char) : List Char → Bool
  | [] => firstMatches pat []
  | c :: rest => firstMatches pat (c :: rest) || containsSub pat rest

/-- ASCII lowercasing of a character list, modelling toLowerCase on
the URLs handled by the extension. -/
def lowerChars (l : List Char) : List Char := l.map Char.toLower

/-- The URL substring that the source tests for when classifying an
org as a sandbox. -/
def sandboxPat : List Char := ".sandbox.".toList

/-- Case-insensitive test for the sandbox marker, modelling the source
expression url.toLowerCase().includes of the sandbox pattern. -/
def containsSandbox (url : String) : Bool :=
  containsSub sandboxPat (lowerChars url.toList)

/-- Org record as handled by the extension: a denormalized dictionary
of fields coming from the CLI JSON output, each possibly absent. -/
structure Org where
  orgAlias : Option String
  username : Option String
  orgId : Option String
  instanceUrl : Option String
  connectedStatus : Option String
  isScratch : Bool
  isDevHub : Bool
  isSandbox : Bool
  ProdOrSandbox : Option String
  deriving Repr, DecidableEq

/-- Identity of an org record in the source: alias when truthy, else
username (the result may itself be absent when both fields are). -/
def orgKey (org : Org) : Option String := jsOrStr org.orgAlias org.username

/-- Embedding of the source function setProdOrSandbox: stamps the
ProdOrSandbox field from the instance URL, following JS truthiness of
the URL field (absent or empty URL gives Unknown). -/
def setProdOrSandbox (org : Org) : Org :=
  if truthyStr org.instanceUrl then
    if containsSandbox (org.instanceUrl.getD "") then
      { org with ProdOrSandbox := some "Sandbox" }
    else
      { org with ProdOrSandbox := some "Production" }
  else
    { org with ProdOrSandbox := some "Unknown" }

/-- The two persisted globalState entries used by the extension: the
cached org list (absent before the first successful fetch) and the
last-opened timestamp map, modelled as an association list. -/
structure GlobalState where
  salesforceOrgs : Option (List Org)
  orgLastOpenedTimes : List (String × String)
  deriving Repr, DecidableEq

/-- Shape of the result payload of the JSON output of the org list
command: absent or falsy, a plain array, or an object carrying the
optional nonScratchOrgs and scratchOrgs sub-arrays (an object with
both fields absent models any other truthy non-array value). -/
inductive ListPayload where
  | missing
  | arr (orgs : List Org)
  | grouped (nonScratchOrgs : Option (List Org)) (scratchOrgs : Option (List Org))
  deriving Repr, DecidableEq

/-- Outcome of the awaited org list subprocess call: failure models a
non-zero exit or unparsable stdout (both raise in the source), success
carries the parsed result payload. -/
inductive FetchOutcome where
  | failure
  | success (payload : ListPayload)
  deriving Repr, DecidableEq

/-- Value returned to the caller of fetchAndCacheOrgs: the org list on
success, or the propagated error. -/
inductive FetchRes where
  | ok (orgs : List Org)
  | err
  deriving Repr, DecidableEq

/-- Full observable outcome of one call to fetchAndCacheOrgs: the
returned value, the updated store, and whether the subprocess was
spawned. -/
structure FetchResult where
  res : FetchRes
  state : GlobalState
  subprocessCalled : Bool
  deriving Repr, DecidableEq

/-- Embedding of the shape handling in fetchAndCacheOrgs: a grouped
object contributes its nonScratchOrgs sub-array followed by its
scratchOrgs sub-array, a plain array is taken as-is, and any other
shape yields the empty list. -/
def flattenListResult : ListPayload → List Org
  | ListPayload.missing => []
  | ListPayload.arr orgs => orgs
  | ListPayload.grouped ns s => ns.getD [] ++ s.getD []

/-- Fresh-fetch path of fetchAndCacheOrgs: on failure the error is
propagated and the store is untouched; on success the flattened list is
stamped by setProdOrSandbox, persisted over the stored list, and
returned. -/
def fetchFresh (st : GlobalState) (env : FetchOutcome) : FetchResult :=
  match env with
  | FetchOutcome.failure =>
      { res := FetchRes.err, state := st, subprocessCalled := true }
  | FetchOutcome.success payload =>
      let orgs := (flattenListResult payload).map setProdOrSandbox
      { res := FetchRes.ok orgs,
        state := { st with salesforceOrgs := some orgs },
        subprocessCalled := true }

/-- Embedding of fetchAndCacheOrgs: without forceRefresh a present
cached list (any stored array is truthy in JS, even the empty one) is
returned unchanged with no subprocess call; otherwise the fresh-fetch
path runs. -/
def fetchAndCacheOrgs (st : GlobalState) (forceRefresh : Bool) (env : FetchOutcome) : FetchResult :=
  match forceRefresh, st.salesforceOrgs with
  | false, some cached =>
      { res := FetchRes.ok cached, state := st, subprocessCalled := false }
  | false, none => fetchFresh st env
  | true, _ => fetchFresh st env

/-- Removal of a key from the last-opened map, modelling the JS delete
of an object property. -/
def eraseKey (k : String) (m : List (String × String)) : List (String × String) :=
  m.filter (fun p => p.1 != k)

/-- Upsert of a key in the last-opened map, modelling JS object
property assignment. -/
def setKey (k v : String) : List (String × String) → List (String × String)
  | [] => [(k, v)]
  | p :: rest => if p.1 = k then (k, v) :: rest else p :: setKey k v rest

/-- Outcome of an awaited side-effecting subprocess call. -/
inductive RemoteOutcome where
  | ok
  | err
  deriving Repr, DecidableEq

/-- Embedding of the confirmed branch of the logoutOrg handler: the
remote logout call is awaited first; only when it succeeds are the
last-opened entry and the matching cached records removed and the
removeOrg message posted to the view (the Bool component records that
message).  When the remote call fails, the catch branch reports the
error and performs no local mutation. -/
def logoutOrgConfirmed (st : GlobalState) (logoutAlias : String) (remote : RemoteOutcome) :
    GlobalState × Bool :=
  match remote with
  | RemoteOutcome.err => (st, false)
  | RemoteOutcome.ok =>
      let times := eraseKey logoutAlias st.orgLastOpenedTimes
      let updatedOrgs := (st.salesforceOrgs.getD []).filter
        (fun org => orgKey org != some logoutAlias)
      ({ salesforceOrgs := some updatedOrgs, orgLastOpenedTimes := times }, true)

/-- Embedding of the upsert step of the addOrg command handler after a
successful display fetch: the new record is tagged Connected, stamped
by setProdOrSandbox, prior records sharing the entered alias as
identifier are filtered out, the new record is prepended, and the
last-opened entry for the alias is set to the current time. -/
def addOrgUpsert (st : GlobalState) (enteredAlias : String) (newOrg : Org) (now : String) :
    GlobalState :=
  let stamped := setProdOrSandbox { newOrg with connectedStatus := some "Connected" }
  let cached := st.salesforceOrgs.getD []
  let filteredOrgs := cached.filter (fun org => orgKey org != some enteredAlias)
  { salesforceOrgs := some (stamped :: filteredOrgs),
    orgLastOpenedTimes := setKey enteredAlias now st.orgLastOpenedTimes }

/-- Maximal run of leading decimal digits of a character list, with the
remaining characters, modelling a greedy digit group of the version
pattern. -/
def takeDigits : List Char → List Char × List Char
  | [] => ([], [])
  | c :: rest =>
      if c.isDigit then
        let (ds, r) := takeDigits rest
        (c :: ds, r)
      else ([], c :: rest)

/-- Decimal value of a digit run, modelling parseInt with radix 10 on
the captured group. -/
def digitsToNat (ds : List Char) : Nat :=
  ds.foldl (fun n c => 10 * n + (c.toNat - 48)) 0

/-- Parses one or more leading digits, returning their value and the
rest of the input. -/
def parseNum (s : List Char) : Option (Nat × List Char) :=
  match takeDigits s with
  | ([], _) => none
  | (ds, r) => some (digitsToNat ds, r)

/-- Consumes a literal dot. -/
def parseDot : List Char → Option (List Char)
  | '.' :: r => some r
  | _ => none

/-- Parses the three dot-separated digit groups of the version pattern
at the start of the input. -/
def parseSemver (s : List Char) : Option (Nat × Nat × Nat) := do
  let (a, r1) ← parseNum s
  let r2 ← parseDot r1
  let (b, r3) ← parseNum r2
  let r4 ← parseDot r3
  let (c, _) ← parseNum r4
  pure (a, b, c)

/-- The literal marker of the version pattern in the CLI output. -/
def cliMarker : List Char := "@salesforce/cli/".toList

/-- Consumes the marker at the start of the input when it is there. -/
def dropMarker : List Char → List Char → Option (List Char)
  | [], s => some s
  | _ :: _, [] => none
  | p :: ps, c :: cs => if p = c then dropMarker ps cs else none

/-- Embedding of the version regex match on the free-form CLI output:
the earliest position where the marker is followed by three dot
separated digit groups yields the parsed version, and no such position
yields no match. -/
def findVersion : List Char → Option (Nat × Nat × Nat)
  | [] => none
  | c :: rest =>
      match dropMarker cliMarker (c :: rest) with
      | some tail =>
          match parseSemver tail with
          | some v => some v
          | none => findVersion rest
      | none => findVersion rest

/-- Embedding of the cascade of comparisons against the fixed minimum
2.105.0 in checkSfCliVersion. -/
def versionAtLeastMin (major minor patch : Nat) : Bool :=
  if 2 < major then true
  else if major = 2 ∧ 105 < minor then true
  else if major = 2 ∧ minor = 105 ∧ 0 ≤ patch then true
  else false

/-- Outcome of the awaited version subprocess call. -/
inductive VersionCmdOutcome where
  | failure
  | output (stdout : String)
  deriving Repr, DecidableEq

/-- Embedding of checkSfCliVersion: the first component is the returned
Bool, the second records whether the user-facing warning message was
shown.  An invocation failure or a parse failure returns false with no
warning (logged only); a parsed version below the minimum returns false
after showing the warning; otherwise the check returns true. -/
def checkSfCliVersion : VersionCmdOutcome → Bool × Bool
  | VersionCmdOutcome.failure => (false, false)
  | VersionCmdOutcome.output s =>
      match findVersion s.toList with
      | none => (false, false)
      | some (major, minor, patch) =>
          if versionAtLeastMin major minor patch then (true, false)
          else (false, true)

/-- Lexicographic strict order against the fixed minimum 2.105.0, the
comparison named by the specification for the version check. -/
def versionBelowMin (major minor patch : Nat) : Prop :=
  major < 2 ∨ (major = 2 ∧ (minor < 105 ∨ (minor = 105 ∧ patch < 0)))

instance (a b c : Nat) : Decidable (versionBelowMin a b c) := by
  unfold versionBelowMin; infer_instance

/-- Table row of the webview as seen by the sorting script: the three
data attributes read by the comparator.  The lastused attribute holds
the ISO timestamp string, or the empty string for a never opened row. -/
structure Row where
  dataAlias : String
  dataStatus : String
  dataLastused : String
  deriving Repr, DecidableEq

/-- The three sortable columns of the table. -/
inductive Col where
  | colAlias
  | colStatus
  | colLastused
  deriving Repr, DecidableEq

/-- String comparator branch of sortTable for the alias and status
columns: plain string comparison, negated when descending. -/
def strCmp (asc : Bool) (a b : String) : Int :=
  if a < b then (if asc then -1 else 1)
  else if b < a then (if asc then 1 else -1)
  else 0

/-- Last-used comparator branch of sortTable: rows with an empty value
sort after rows carrying a timestamp in both directions, and two
timestamps are compared through their date values (dv models the JS
Date conversion of the attribute string). -/
def lastusedCmp (dv : String → Int) (asc : Bool) (a b : String) : Int :=
  if a = "" ∧ b = "" then 0
  else if a = "" then 1
  else if b = "" then -1
  else if asc then dv b - dv a else dv a - dv b

/-- Comparator of the sortTable script, by column. -/
def rowCmp (dv : String → Int) (col : Col) (asc : Bool) (a b : Row) : Int :=
  match col with
  | Col.colAlias => strCmp asc a.dataAlias b.dataAlias
  | Col.colStatus => strCmp asc a.dataStatus b.dataStatus
  | Col.colLastused => lastusedCmp dv asc a.dataLastused b.dataLastused

/-- Embedding of the row reordering done by sortTable: the rows sorted
consistently with the comparator (the JS array sort produces an order
consistent with a consistent comparator; a stable insertion sort
realizes it). -/
def sortTable (dv : String → Int) (col : Col) (asc : Bool) (rows : List Row) : List Row :=
  List.insertionSort (fun a b => rowCmp dv col asc a b ≤ 0) rows

/-- The classification invariant: the stamped field is one of the three
expected values. -/
def validPOS (org : Org) : Prop :=
  org.ProdOrSandbox = some "Sandbox" ∨ org.ProdOrSandbox = some "Production" ∨
    org.ProdOrSandbox = some "Unknown"

instance (org : Org) : Decidable (validPOS org) := by
  unfold validPOS; infer_instance

/-- Sample org record used by the concrete witnesses. -/
def sampleOrg : Org :=
  { orgAlias := some "acme"
    username := some "dev@acme.example"
    orgId := some "00D000000000001"
    instanceUrl := some "https://acme.my.salesforce.com"
    connectedStatus := some "Connected"
    isScratch := false
    isDevHub := false
    isSandbox := false
    ProdOrSandbox := none }

/-- Second sample org record used by the concrete witnesses. -/
def sampleOrg2 : Org :=
  { orgAlias := some "qa"
    username := some "qa@acme.example"
    orgId := some "00D000000000002"
    instanceUrl := some "https://acme--qa.sandbox.my.salesforce.com"
    connectedStatus := some "Connected"
    isScratch := false
    isDevHub := false
    isSandbox := true
    ProdOrSandbox := none }

/-- Sample store holding both sample records and one last-opened
entry. -/
def sampleState : GlobalState :=
  { salesforceOrgs := some [sampleOrg, sampleOrg2]
    orgLastOpenedTimes := [("acme", "2025-01-01T00:00:00.000Z")] }

/-- Sample rows used by the sorting witness. -/
def sampleRows : List Row :=
  [ { dataAlias := "acme", dataStatus := "Connected", dataLastused := "" }
  , { dataAlias := "qa", dataStatus := "Connected", dataLastused := "2025-01-01T00:00:00.000Z" }
  , { dataAlias := "uat", dataStatus := "Unknown", dataLastused := "2025-02-01T00:00:00.000Z" }
  , { dataAlias := "dev", dataStatus := "Connected", dataLastused := "" } ]

/-- Sample date valuation used by the sorting witness. -/
def sampleDv (s : String) : Int := (s.toList.map Char.toNat).foldl (· + ·) 0

/-- Store with an empty cached org list, used by a witness. -/
def emptyOrgsState : GlobalState :=
  { salesforceOrgs := some [], orgLastOpenedTimes := [] }

/-- Helper: stamping never changes the identity of a record. -/
theorem orgKey_setProdOrSandbox (org : Org) : orgKey (setProdOrSandbox org) = orgKey org := by
  unfold setProdOrSandbox
  split_ifs <;> rfl

/-- Helper: the stamped field is always one of the three expected
values. -/
theorem setProdOrSandbox_valid (org : Org) : validPOS (setProdOrSandbox org) := by
  unfold setProdOrSandbox validPOS
  split_ifs <;> simp

/-- C1: with forceRefresh false and a cached list L present, the call
returns L unchanged, spawns no subprocess and leaves the store as it
was; hence a second such call, under any subprocess environment, again
returns L and spawns no subprocess. -/
theorem fetchAndCacheOrgs_cached_noSubprocess
    (st : GlobalState) (L : List Org) (env env2 : FetchOutcome)
    (h : st.salesforceOrgs = some L) :
    (fetchAndCacheOrgs st false env).res = FetchRes.ok L ∧
    (fetchAndCacheOrgs st false env).subprocessCalled = false ∧
    (fetchAndCacheOrgs st false env).state = st ∧
    (fetchAndCacheOrgs (fetchAndCacheOrgs st false env).state false env2).res = FetchRes.ok L ∧
    (fetchAndCacheOrgs (fetchAndCacheOrgs st false env).state false env2).subprocessCalled
      = false := by
  simp [fetchAndCacheOrgs, h]

/-- Witness for C1 at a concrete store and environments. -/
theorem fetchAndCacheOrgs_cached_noSubprocess_witness :
    (fetchAndCacheOrgs sampleState false FetchOutcome.failure).res
        = FetchRes.ok [sampleOrg, sampleOrg2] ∧
    (fetchAndCacheOrgs sampleState false FetchOutcome.failure).subprocessCalled = false ∧
    (fetchAndCacheOrgs sampleState false FetchOutcome.failure).state = sampleState ∧
    (fetchAndCacheOrgs (fetchAndCacheOrgs sampleState false FetchOutcome.failure).state false
        (FetchOutcome.success (ListPayload.arr []))).res = FetchRes.ok [sampleOrg, sampleOrg2] ∧
    (fetchAndCacheOrgs (fetchAndCacheOrgs sampleState false FetchOutcome.failure).state false
        (FetchOutcome.success (ListPayload.arr []))).subprocessCalled = false :=
  fetchAndCacheOrgs_cached_noSubprocess sampleState [sampleOrg, sampleOrg2]
    FetchOutcome.failure (FetchOutcome.success (ListPayload.arr [])) rfl

/-- C2: when the call actually spawns the listing subprocess and that
subprocess fails (non-zero exit or unparsable stdout), the call
propagates the error and the store, including any previously cached
org list, is left exactly as it was: no write happens on the error
path. -/
theorem fetchAndCacheOrgs_failure_noWrite
    (st : GlobalState) (b : Bool)
    (h : (fetchAndCacheOrgs st b FetchOutcome.failure).subprocessCalled = true) :
    (fetchAndCacheOrgs st b FetchOutcome.failure).res = FetchRes.err ∧
    (fetchAndCacheOrgs st b FetchOutcome.failure).state = st := by
  cases b <;> rcases hs : st.salesforceOrgs with _ | L <;>
    simp_all [fetchAndCacheOrgs, fetchFresh]

/-- Witness for C2 at a concrete store with a cached list. -/
theorem fetchAndCacheOrgs_failure_noWrite_witness :
    (fetchAndCacheOrgs sampleState true FetchOutcome.failure).res = FetchRes.err ∧
    (fetchAndCacheOrgs sampleState true FetchOutcome.failure).state = sampleState :=
  fetchAndCacheOrgs_failure_noWrite sampleState true rfl

/-- C3: the parsed payload is flattened with the non-scratch group
first and the scratch group second, a plain array is taken as-is, any
other shape (a missing payload, or a truthy value carrying neither
group) flattens to the empty list, and on a successful forced fetch
the stamped flattened list is persisted over the stored list
unconditionally, so an unrecognized shape overwrites any prior cache
with the empty list. -/
theorem fetchAndCacheOrgs_flatten_overwrite :
    (∀ ns s, flattenListResult (ListPayload.grouped (some ns) (some s)) = ns ++ s) ∧
    (∀ l, flattenListResult (ListPayload.arr l) = l) ∧
    flattenListResult ListPayload.missing = [] ∧
    flattenListResult (ListPayload.grouped none none) = [] ∧
    (∀ st payload,
      (fetchAndCacheOrgs st true (FetchOutcome.success payload)).state.salesforceOrgs
        = some ((flattenListResult payload).map setProdOrSandbox)) ∧
    (∀ st,
      (fetchAndCacheOrgs st true
          (FetchOutcome.success (ListPayload.grouped none none))).state.salesforceOrgs
        = some []) :=
  ⟨fun _ _ => rfl, fun _ => rfl, rfl, rfl, fun _ _ => rfl, fun _ => rfl⟩

/-- C5 counterexample: a confirmed logout whose remote subprocess call
fails removes nothing locally at this concrete store: the last-opened
entry and the cached record for the identifier are both still
present. -/
theorem logout_remoteFailure_counterexample :
    (logoutOrgConfirmed sampleState "acme" RemoteOutcome.err).1 = sampleState ∧
    ("acme", "2025-01-01T00:00:00.000Z")
        ∈ (logoutOrgConfirmed sampleState "acme" RemoteOutcome.err).1.orgLastOpenedTimes ∧
    (∃ o ∈ (logoutOrgConfirmed sampleState "acme" RemoteOutcome.err).1.salesforceOrgs.getD [],
        orgKey o = some "acme") := by
  refine ⟨rfl, by decide, ⟨sampleOrg, by decide, by decide⟩⟩

/-- C5 amended: when the remote logout subprocess fails, the catch
branch reports the error and performs no local mutation at all: both
persisted maps are left untouched and no row removal is signalled
(local mutation is gated on remote success). -/
theorem logout_remoteFailure_preservesLocal (st : GlobalState) (A : String) :
    logoutOrgConfirmed st A RemoteOutcome.err = (st, false) := rfl

/-- C7: the production or sandbox classification is total and
three-valued: a present URL whose lowercase form carries the sandbox
marker classifies as Sandbox, a present non-empty URL without the
marker classifies as Production, an absent URL classifies as Unknown,
and every record classifies as one of the three. -/
theorem setProdOrSandbox_classification (org : Org) :
    (∀ url, org.instanceUrl = some url → containsSandbox url = true →
      (setProdOrSandbox org).ProdOrSandbox = some "Sandbox") ∧
    (∀ url, org.instanceUrl = some url → url ≠ "" → containsSandbox url = false →
      (setProdOrSandbox org).ProdOrSandbox = some "Production") ∧
    (org.instanceUrl = none → (setProdOrSandbox org).ProdOrSandbox = some "Unknown") ∧
    validPOS (setProdOrSandbox org) := by
  refine ⟨?_, ?_, ?_, setProdOrSandbox_valid org⟩
  · intro url hu hsand
    have hne : url ≠ "" := by
      intro he
      rw [he] at hsand
      exact absurd hsand (by decide)
    unfold setProdOrSandbox
    rw [hu]
    simp [truthyStr, hne, hsand]
  · intro url hu hne hsand
    unfold setProdOrSandbox
    rw [hu]
    simp [truthyStr, hne, hsand]
  · intro hu
    unfold setProdOrSandbox
    rw [hu]
    simp [truthyStr]

/-- C4: a confirmed logout whose subprocess call succeeds leaves no
last-opened entry keyed by the identifier and no cached record whose
identity is the identifier, and signals the view to remove the row;
when the identifier is absent from both maps the whole operation
returns the store unchanged (idempotence), still signalling and not
erring. -/
theorem logoutOrg_removes_and_idempotent
    (st : GlobalState) (A : String) (l : List Org)
    (hcache : st.salesforceOrgs = some l) :
    (∀ p ∈ (logoutOrgConfirmed st A RemoteOutcome.ok).1.orgLastOpenedTimes, p.1 ≠ A) ∧
    (∀ o ∈ (logoutOrgConfirmed st A RemoteOutcome.ok).1.salesforceOrgs.getD [],
        orgKey o ≠ some A) ∧
    (logoutOrgConfirmed st A RemoteOutcome.ok).2 = true ∧
    ((∀ p ∈ st.orgLastOpenedTimes, p.1 ≠ A) → (∀ o ∈ l, orgKey o ≠ some A) →
      logoutOrgConfirmed st A RemoteOutcome.ok = (st, true)) := by
  refine ⟨?_, ?_, rfl, ?_⟩
  · intro p hp
    simp only [logoutOrgConfirmed, eraseKey, List.mem_filter, bne_iff_ne, ne_eq] at hp
    exact hp.2
  · intro o ho
    simp only [logoutOrgConfirmed, hcache, Option.getD_some, List.mem_filter,
      bne_iff_ne, ne_eq] at ho
    exact ho.2
  · intro h1 h2
    have e1 : eraseKey A st.orgLastOpenedTimes = st.orgLastOpenedTimes := by
      unfold eraseKey
      rw [List.filter_eq_self]
      intro p hp
      simpa using h1 p hp
    have e2 : l.filter (fun org => orgKey org != some A) = l := by
      rw [List.filter_eq_self]
      intro o ho
      simpa using h2 o ho
    simp only [logoutOrgConfirmed, hcache, Option.getD_some, e1, e2]
    rw [← hcache]

/-- Witness for C4 at a concrete store holding both sample records. -/
theorem logoutOrg_removes_and_idempotent_witness :
    (∀ p ∈ (logoutOrgConfirmed sampleState "acme" RemoteOutcome.ok).1.orgLastOpenedTimes,
        p.1 ≠ "acme") ∧
    (∀ o ∈ (logoutOrgConfirmed sampleState "acme" RemoteOutcome.ok).1.salesforceOrgs.getD [],
        orgKey o ≠ some "acme") ∧
    (logoutOrgConfirmed sampleState "acme" RemoteOutcome.ok).2 = true ∧
    ((∀ p ∈ sampleState.orgLastOpenedTimes, p.1 ≠ "acme") →
      (∀ o ∈ [sampleOrg, sampleOrg2], orgKey o ≠ some "acme") →
      logoutOrgConfirmed sampleState "acme" RemoteOutcome.ok = (sampleState, true)) :=
  logoutOrg_removes_and_idempotent sampleState "acme" [sampleOrg, sampleOrg2] rfl

/-- C6: after the add-org upsert with entered alias A and a fetched
record whose identity is A, the cached list holds exactly one record
with identity A, that record is first, and the tail is exactly the
prior cache with every record of identity A removed. -/
theorem addOrg_upsert_unique_first
    (st : GlobalState) (A now : String) (newOrg : Org)
    (hkey : orgKey newOrg = some A) :
    ((addOrgUpsert st A newOrg now).salesforceOrgs.getD []).countP
        (fun o => orgKey o == some A) = 1 ∧
    (∃ first rest, (addOrgUpsert st A newOrg now).salesforceOrgs.getD [] = first :: rest ∧
      orgKey first = some A ∧ (∀ o ∈ rest, orgKey o ≠ some A) ∧
      rest = (st.salesforceOrgs.getD []).filter (fun org => orgKey org != some A)) := by
  have hL : (addOrgUpsert st A newOrg now).salesforceOrgs.getD []
      = setProdOrSandbox { newOrg with connectedStatus := some "Connected" }
          :: (st.salesforceOrgs.getD []).filter (fun org => orgKey org != some A) := rfl
  have hstamp : orgKey (setProdOrSandbox { newOrg with connectedStatus := some "Connected" })
      = some A := by
    rw [orgKey_setProdOrSandbox]
    exact hkey
  constructor
  · rw [hL, List.countP_cons]
    have h0 : ((st.salesforceOrgs.getD []).filter
        (fun org => orgKey org != some A)).countP (fun o => orgKey o == some A) = 0 := by
      rw [List.countP_eq_zero]
      intro o ho
      have := List.of_mem_filter ho
      simp_all
    rw [h0]
    simp [hstamp]
  · refine ⟨_, _, hL, hstamp, ?_, rfl⟩
    intro o ho
    have := List.of_mem_filter ho
    simpa using this

/-- Witness for C6 at a concrete store and fetched record. -/
theorem addOrg_upsert_unique_first_witness :
    ((addOrgUpsert sampleState "acme" sampleOrg "2025-03-01T00:00:00.000Z").salesforceOrgs.getD
        []).countP (fun o => orgKey o == some "acme") = 1 ∧
    (∃ first rest,
      (addOrgUpsert sampleState "acme" sampleOrg
          "2025-03-01T00:00:00.000Z").salesforceOrgs.getD [] = first :: rest ∧
      orgKey first = some "acme" ∧ (∀ o ∈ rest, orgKey o ≠ some "acme") ∧
      rest = (sampleState.salesforceOrgs.getD []).filter
        (fun org => orgKey org != some "acme")) :=
  addOrg_upsert_unique_first sampleState "acme" "2025-03-01T00:00:00.000Z" sampleOrg (by decide)

/-- Helper: the cascade of comparisons in the source is exactly the
complement of the lexicographic strict order below 2.105.0. -/
theorem versionAtLeastMin_iff (a b c : Nat) :
    versionAtLeastMin a b c = true ↔ ¬ versionBelowMin a b c := by
  unfold versionAtLeastMin versionBelowMin
  split_ifs with h1 h2 h3 <;> simp <;> omega

/-- C8: the startup check parses the three-part version out of the
free-form output; an invocation failure or a parse failure yields false
with no user-facing warning (silent, logged only); on a parsed version
the warning is shown exactly when the version is lexicographically
below the fixed minimum 2.105.0, and the check returns true exactly
when it is not. -/
theorem checkSfCliVersion_spec :
    checkSfCliVersion VersionCmdOutcome.failure = (false, false) ∧
    (∀ s, findVersion s.toList = none →
      checkSfCliVersion (VersionCmdOutcome.output s) = (false, false)) ∧
    (∀ s major minor patch, findVersion s.toList = some (major, minor, patch) →
      (((checkSfCliVersion (VersionCmdOutcome.output s)).2 = true) ↔
          versionBelowMin major minor patch) ∧
      (((checkSfCliVersion (VersionCmdOutcome.output s)).1 = true) ↔
          ¬ versionBelowMin major minor patch)) := by
  refine ⟨rfl, ?_, ?_⟩
  · intro s h
    have h2 : findVersion s.data = none := h
    simp [checkSfCliVersion, h2]
  · intro s major minor patch h
    have h2 : findVersion s.data = some (major, minor, patch) := h
    have hiff := versionAtLeastMin_iff major minor patch
    by_cases hv : versionAtLeastMin major minor patch = true <;>
      simp_all [checkSfCliVersion, h2]

/-- C9: sorting by the last-used column places every row whose
last-used attribute is empty after every row carrying a timestamp, in
both sort directions; two rows carrying timestamps are compared through
their date values, and the alias and status columns are compared as
strings. -/
theorem sortTable_lastused_emptyAfterTimestamps
    (dv : String → Int) (asc : Bool) (rows : List Row) :
    ((sortTable dv Col.colLastused asc rows).Pairwise
      (fun a b => a.dataLastused = "" → b.dataLastused = "")) ∧
    (∀ a b : Row, a.dataLastused ≠ "" → b.dataLastused ≠ "" →
      rowCmp dv Col.colLastused asc a b =
        (if asc then dv b.dataLastused - dv a.dataLastused
         else dv a.dataLastused - dv b.dataLastused)) ∧
    (∀ a b : Row, rowCmp dv Col.colAlias asc a b = strCmp asc a.dataAlias b.dataAlias) ∧
    (∀ a b : Row, rowCmp dv Col.colStatus asc a b = strCmp asc a.dataStatus b.dataStatus) := by
  refine ⟨?_, ?_, fun a b => rfl, fun a b => rfl⟩
  · have total : ∀ a b : Row, rowCmp dv Col.colLastused asc a b ≤ 0 ∨
        rowCmp dv Col.colLastused asc b a ≤ 0 := by
      intro a b
      by_cases ha : a.dataLastused = "" <;> by_cases hb : b.dataLastused = "" <;>
        cases asc <;> simp [rowCmp, lastusedCmp, ha, hb] <;> omega
    have htrans : ∀ a b c : Row, rowCmp dv Col.colLastused asc a b ≤ 0 →
        rowCmp dv Col.colLastused asc b c ≤ 0 → rowCmp dv Col.colLastused asc a c ≤ 0 := by
      intro a b c hab hbc
      by_cases ha : a.dataLastused = "" <;> by_cases hb : b.dataLastused = "" <;>
        by_cases hc : c.dataLastused = "" <;> cases asc <;>
        simp [rowCmp, lastusedCmp, ha, hb, hc] at hab hbc ⊢ <;> omega
    haveI : IsTotal Row (fun a b => rowCmp dv Col.colLastused asc a b ≤ 0) := ⟨total⟩
    haveI : IsTrans Row (fun a b => rowCmp dv Col.colLastused asc a b ≤ 0) :=
      ⟨fun a b c => htrans a b c⟩
    have hs := List.sorted_insertionSort
      (fun a b => rowCmp dv Col.colLastused asc a b ≤ 0) rows
    refine List.Pairwise.imp ?_ hs
    intro a b hab ha
    by_contra hb
    simp [rowCmp, lastusedCmp, ha, hb] at hab
  · intro a b ha hb
    simp [rowCmp, lastusedCmp, ha, hb]

/-- C10: after a successful fresh fetch every persisted record carries
a ProdOrSandbox field equal to Sandbox, Production or Unknown, and the
add-org upsert preserves that invariant by stamping the fetched record
before prepending it. -/
theorem orgList_validPOS_invariant
    (st st2 : GlobalState) (payload : ListPayload) (A now : String) (newOrg : Org)
    (l : List Org) (hcache : st2.salesforceOrgs = some l) (hl : ∀ o ∈ l, validPOS o) :
    (∀ o ∈ (fetchAndCacheOrgs st true
        (FetchOutcome.success payload)).state.salesforceOrgs.getD [], validPOS o) ∧
    (∀ o ∈ (addOrgUpsert st2 A newOrg now).salesforceOrgs.getD [], validPOS o) := by
  constructor
  · intro o ho
    have hE : (fetchAndCacheOrgs st true
        (FetchOutcome.success payload)).state.salesforceOrgs.getD []
        = (flattenListResult payload).map setProdOrSandbox := rfl
    rw [hE] at ho
    obtain ⟨x, _, hx⟩ := List.mem_map.mp ho
    rw [← hx]
    exact setProdOrSandbox_valid x
  · intro o ho
    have hL : (addOrgUpsert st2 A newOrg now).salesforceOrgs.getD []
        = setProdOrSandbox { newOrg with connectedStatus := some "Connected" }
            :: (st2.salesforceOrgs.getD []).filter (fun org => orgKey org != some A) := rfl
    rw [hL] at ho
    rcases List.mem_cons.mp ho with h | h
    · rw [h]
      exact setProdOrSandbox_valid _
    · refine hl o ?_
      rw [hcache] at h
      simpa using List.mem_of_mem_filter h

/-- Witness for C10 at a concrete store and payload. -/
theorem orgList_validPOS_invariant_witness :
    (∀ o ∈ (fetchAndCacheOrgs sampleState true
        (FetchOutcome.success (ListPayload.arr [sampleOrg]))).state.salesforceOrgs.getD [],
      validPOS o) ∧
    (∀ o ∈ (addOrgUpsert emptyOrgsState "acme" sampleOrg
        "2025-03-01T00:00:00.000Z").salesforceOrgs.getD [], validPOS o) :=
  orgList_validPOS_invariant sampleState emptyOrgsState (ListPayload.arr [sampleOrg])
    "acme" "2025-03-01T00:00:00.000Z" sampleOrg [] rfl (by simp)

end Organetto
